import Mathlib

/-!
# Verification of the hermes messaging library (structs / receiver / node)

A shallow embedding of the hermes pub/sub library's core data model and
operations, translated from the Python sources:

* `hermes/structs.py` — `Envelope` codec, the `Message` family of typed
  payloads (`Quote`, `Order`, `Trades`, `Candle`, `TopLevel`, `Book`,
  `RawBook`),
* `hermes/receiver.py` — the `Receiver` worker loop, staleness kill switch
  and `recv`,
* `hermes/node.py` — the `Node` composition layer,
* `hermes/utils.py` — the `check_pairs` decorator.

Python scalars and containers are modelled by `PyVal`; JSON wire values by
`Json`; Python exceptions by the `PyErr` error kinds carried in `Except`.
Wall-clock reads (`time.time()`) are passed in explicitly as `now`
parameters of type `ℚ`.
-/

/-- Kinds of Python exceptions raised by the embedded code paths. -/
inductive PyErr
  | typeError
  | valueError
  | keyError
  | indexError
  | nameError
  | assertionError
  | notImplementedError
  | incompatiblePairsError
  deriving DecidableEq, Repr

/-- JSON values, as produced by `json.dumps` / consumed by `json.loads`.
Numbers are modelled as rationals. -/
inductive Json
  | null
  | bool (b : Bool)
  | num (q : ℚ)
  | str (s : String)
  | arr (xs : List Json)
  | obj (kvs : List (String × Json))

/-- Python values that can appear as an envelope payload or as a field of a
typed payload: the JSON-representable fragment of Python (`None`, `bool`,
numbers, `str`, `list`, `tuple`, `dict` with string keys). -/
inductive PyVal
  | none
  | bool (b : Bool)
  | num (q : ℚ)
  | str (s : String)
  | list (xs : List PyVal)
  | tup (xs : List PyVal)
  | dict (kvs : List (String × PyVal))

mutual

/-- Embedding of `json.dumps`: encode a Python value as a JSON value (tuples are encoded
as JSON arrays, exactly like lists). -/
def pyToJson : PyVal → Json
  | .none => .null
  | .bool b => .bool b
  | .num q => .num q
  | .str s => .str s
  | .list xs => .arr (pyToJsonList xs)
  | .tup xs => .arr (pyToJsonList xs)
  | .dict kvs => .obj (pyToJsonPairs kvs)

/-- Embedding of `json.dumps` on the elements of a list or tuple. -/
def pyToJsonList : List PyVal → List Json
  | [] => []
  | x :: xs => pyToJson x :: pyToJsonList xs

/-- Embedding of `json.dumps` on the entries of a dict. -/
def pyToJsonPairs : List (String × PyVal) → List (String × Json)
  | [] => []
  | (k, v) :: kvs => (k, pyToJson v) :: pyToJsonPairs kvs

end

mutual

/-- Embedding of `json.loads`: decode a JSON value back into a Python value (JSON arrays
always become lists, never tuples). -/
def jsonToPy : Json → PyVal
  | .null => .none
  | .bool b => .bool b
  | .num q => .num q
  | .str s => .str s
  | .arr xs => .list (jsonToPyList xs)
  | .obj kvs => .dict (jsonToPyPairs kvs)

/-- Embedding of `json.loads` on the elements of a JSON array. -/
def jsonToPyList : List Json → List PyVal
  | [] => []
  | x :: xs => jsonToPy x :: jsonToPyList xs

/-- Embedding of `json.loads` on the entries of a JSON object. -/
def jsonToPyPairs : List (String × Json) → List (String × PyVal)
  | [] => []
  | (k, v) :: kvs => (k, jsonToPy v) :: jsonToPyPairs kvs

end

/-- The composite `json.loads(json.dumps(v))`: the normalization a Python
value undergoes on a wire round trip. -/
def jsonNorm (v : PyVal) : PyVal :=
  jsonToPy (pyToJson v)

/-- Python `str()` of a number. Python prints integral values without a fractional
part; this development only ever evaluates it at integral numbers. -/
def numStr (q : ℚ) : String :=
  if q.den = 1 then toString q.num else toString q.num ++ "/" ++ toString q.den

/-- The ASCII single-quote character used by `repr()` around strings,
written via its code point. -/
def quoteChar : String :=
  String.singleton (Char.ofNat 39)

/-- Comma-space separation, as used inside Python container reprs. -/
def commaSep : List String → String
  | [] => ""
  | [s] => s
  | s :: rest => s ++ ", " ++ commaSep rest

mutual

/-- Python `repr()` on the embedded values (scalars exactly; containers in
the usual bracketed form). -/
def pyRepr : PyVal → String
  | .none => "None"
  | .bool true => "True"
  | .bool false => "False"
  | .num q => numStr q
  | .str s => quoteChar ++ s ++ quoteChar
  | .list xs => "[" ++ commaSep (pyReprList xs) ++ "]"
  | .tup [x] => "(" ++ pyRepr x ++ ",)"
  | .tup xs => "(" ++ commaSep (pyReprList xs) ++ ")"
  | .dict kvs => "\x7b" ++ commaSep (pyReprPairs kvs) ++ "\x7d"

/-- Python `repr()` of the elements of a container. -/
def pyReprList : List PyVal → List String
  | [] => []
  | x :: xs => pyRepr x :: pyReprList xs

/-- Python `repr()` of the entries of a dict. -/
def pyReprPairs : List (String × PyVal) → List String
  | [] => []
  | (k, v) :: kvs => (quoteChar ++ k ++ quoteChar ++ ": " ++ pyRepr v) :: pyReprPairs kvs

end

/-- Python `str()`: identity on strings, `repr`-like elsewhere (`str(None)`
is the string `"None"`). -/
def pyStr : PyVal → String
  | .str s => s
  | v => pyRepr v

/-- Python truthiness: `None`, `False`, zero, and empty containers are
falsy; everything else is truthy. -/
def pyTruthy : PyVal → Bool
  | .none => false
  | .bool b => b
  | .num q => decide (q ≠ 0)
  | .str s => decide (s ≠ "")
  | .list xs => !xs.isEmpty
  | .tup xs => !xs.isEmpty
  | .dict kvs => !kvs.isEmpty

/-- Python `len()`: defined for strings and containers, a `TypeError` for
scalars. -/
def pyLen : PyVal → Except PyErr Nat
  | .str s => .ok s.length
  | .list xs => .ok xs.length
  | .tup xs => .ok xs.length
  | .dict kvs => .ok kvs.length
  | _ => .error .typeError

/-- Iterating a Python value: a string yields its characters as one-char
strings, containers yield their elements, a dict its keys. Only called on
values that have a `len`. -/
def pyElems : PyVal → List PyVal
  | .str s => s.toList.map (fun c => .str (String.singleton c))
  | .list xs => xs
  | .tup xs => xs
  | .dict kvs => kvs.map (fun kv => .str kv.1)
  | _ => []

/-- Python `isinstance(x, str)`. -/
def isStrV : PyVal → Bool
  | .str _ => true
  | _ => false

/-- Numeric value of a digit run. -/
def digitsToNat (cs : List Char) : Nat :=
  cs.foldl (fun a c => a * 10 + (c.toNat - 48)) 0

/-- Whether every character is a decimal digit. -/
def allDigits (cs : List Char) : Bool :=
  cs.all (fun c => c.isDigit)

/-- Python `float(s)` on a string: optional sign, decimal digits with an
optional fractional part (exponents and special values are not needed by
any code path exercised here). Failure is a `ValueError`. -/
def strFloat (s : String) : Except PyErr ℚ :=
  let cs := s.toList
  let signed : ℚ × List Char :=
    match cs with
    | '-' :: r => (-1, r)
    | '+' :: r => (1, r)
    | _ => (1, cs)
  let sign := signed.1
  let body := signed.2
  let intPart := body.takeWhile (fun c => c ≠ '.')
  match body.dropWhile (fun c => c ≠ '.') with
  | [] =>
    if intPart ≠ [] ∧ allDigits intPart then
      .ok (sign * (digitsToNat intPart : ℚ))
    else .error .valueError
  | _ :: frac =>
    if (intPart ≠ [] ∨ frac ≠ []) ∧ allDigits intPart ∧ allDigits frac then
      .ok (sign * ((digitsToNat intPart : ℚ) + (digitsToNat frac : ℚ) / (10 : ℚ) ^ frac.length))
    else .error .valueError

/-- Python `float()`: numbers pass through, bools become 0/1, numeric
strings are parsed, everything else is a `TypeError`. -/
def pyFloat : PyVal → Except PyErr ℚ
  | .num q => .ok q
  | .bool b => .ok (if b then 1 else 0)
  | .str s => strFloat s
  | _ => .error .typeError

mutual

/-- Python `==` on the embedded values: equality within each shape, with
the numeric tower identification `True == 1`, `False == 0`; lists and
tuples of different kinds never compare equal. -/
def pyEq : PyVal → PyVal → Bool
  | .none, .none => true
  | .bool a, .bool b => a == b
  | .num a, .num b => a == b
  | .bool a, .num b => (if a then (1 : ℚ) else 0) == b
  | .num a, .bool b => a == (if b then (1 : ℚ) else 0)
  | .str a, .str b => a == b
  | .list a, .list b => pyEqList a b
  | .tup a, .tup b => pyEqList a b
  | .dict a, .dict b => pyEqPairs a b
  | _, _ => false

/-- Elementwise `==` on lists. -/
def pyEqList : List PyVal → List PyVal → Bool
  | [], [] => true
  | x :: xs, y :: ys => pyEq x y && pyEqList xs ys
  | _, _ => false

/-- Entrywise `==` on dict entry lists. -/
def pyEqPairs : List (String × PyVal) → List (String × PyVal) → Bool
  | [], [] => true
  | (k, v) :: xs, (l, w) :: ys => k == l && pyEq v w && pyEqPairs xs ys
  | _, _ => false

end

/-- The typed payload classes of `hermes/structs.py` that expose an
`empty()` constructor and can therefore be re-hydrated by name in
`Envelope.load_from_frames` (`Quotes`, `Message`, `PricedMessage` and
`Envelope` itself have no `empty()` and fall back to raw data). -/
inductive TypedKind
  | quote
  | order
  | trades
  | candle
  | topLevel
  | book
  | rawBook
  deriving DecidableEq, Repr

/-- The `__qualname__` dtype tag of each typed payload class. -/
def kindName : TypedKind → String
  | .quote => "Quote"
  | .order => "Order"
  | .trades => "Trades"
  | .candle => "Candle"
  | .topLevel => "TopLevel"
  | .book => "Book"
  | .rawBook => "RawBook"

/-- The module-attribute lookup `reduce(getattr, name.split("."), module)`
followed by `.empty()`: succeeds exactly for the class names above; any
other string raises `AttributeError`, which `load_from_frames` catches
(modelled as `none`). -/
def kindOfName (s : String) : Option TypedKind :=
  if s = "Quote" then some .quote
  else if s = "Order" then some .order
  else if s = "Trades" then some .trades
  else if s = "Candle" then some .candle
  else if s = "TopLevel" then some .topLevel
  else if s = "Book" then some .book
  else if s = "RawBook" then some .rawBook
  else none

/-- The slot values of `Cls.empty()` for each typed payload class, in the
`_slots()` order (base-class slots first: `dtype`, `ts`, then the
subclass fields in declaration order). `now` stands for the `time.time()`
calls made while constructing the empty instance. -/
def emptyFields (k : TypedKind) (now : ℚ) : List PyVal :=
  match k with
  | .quote =>
    [.str "Quote", .num now, .none, .str "None", .str "None", .str "N/A", .num now, .none]
  | .order =>
    [.str "Order", .num now, .none, .str "None", .str "None", .str "N/A", .num now, .dict []]
  | .trades => [.str "Trades", .num now, .list []]
  | .candle =>
    [.str "Candle", .num now, .none, .str "None", .str "None", .str "None", .str "None", .none]
  | .topLevel => [.str "TopLevel", .num now, .tup [], .tup [], .none]
  | .book => [.str "Book", .num now, .tup [], .tup [], .none]
  | .rawBook => [.str "RawBook", .num now, .tup [], .tup [], .none]

/-- Number of slots of each typed payload class. -/
def slotCount : TypedKind → Nat
  | .quote => 8
  | .order => 8
  | .trades => 3
  | .candle => 8
  | .topLevel => 5
  | .book => 5
  | .rawBook => 5

/-- Embedding of `Message.load`: `for value, attr in zip(data, slots): setattr(...)` —
positional override of the empty instance's slot values `d` by the decoded
list `xs`; slots beyond `xs` keep their empty-instance values, elements of
`xs` beyond the slot count are ignored. -/
def hydrate (d xs : List PyVal) : List PyVal :=
  xs.take d.length ++ d.drop xs.length

/-- Envelope payload: either a raw (JSON-compatible) value or a typed
payload represented by its class and slot-value list. -/
inductive EnvData
  | raw (v : PyVal)
  | typed (k : TypedKind) (slots : List PyVal)

/-- Embedding of `hermes.Envelope`: topic, origin, payload, timestamp. -/
structure Envelope where
  topic : PyVal
  origin : PyVal
  data : EnvData
  ts : PyVal

/-- Embedding of `Envelope.__init__`: `self.ts = ts or time.time()` — a falsy `ts`
(`None`, `0`, `""`, ...) is replaced by the current time. -/
def Envelope.init (topic origin : PyVal) (data : EnvData) (ts : PyVal) (now : ℚ) : Envelope :=
  ⟨topic, origin, data, if pyTruthy ts then ts else .num now⟩

/-- The subscript `data[0]` performed by `load_from_frames` on the decoded
payload: first character of a string (`IndexError` when empty), head of a
list (`IndexError` when empty), `KeyError` on a dict (JSON object keys are
strings, never the integer `0`), `TypeError` on scalars. -/
def dataSub0 : PyVal → Except PyErr PyVal
  | .str s =>
    match s.toList with
    | [] => .error .indexError
    | c :: _ => .ok (.str (String.singleton c))
  | .list [] => .error .indexError
  | .list (x :: _) => .ok x
  | .tup [] => .error .indexError
  | .tup (x :: _) => .ok x
  | .dict _ => .error .keyError
  | _ => .error .typeError

/-- The payload half of `Envelope.load_from_frames`: look at `data[0]`; if
it is a string naming a typed payload class, hydrate
`Cls.empty().load(data)`; a non-string tag or an unknown name raises
`AttributeError`, which is caught, leaving the raw decoded value. -/
def decodePayload (data : PyVal) (now : ℚ) : Except PyErr EnvData :=
  match dataSub0 data with
  | .error e => .error e
  | .ok (.str s) =>
    match kindOfName s with
    | some k => .ok (.typed k (hydrate (emptyFields k now) (pyElems data)))
    | none => .ok (.raw data)
  | .ok _ => .ok (.raw data)

/-- A received wire frame: `some j` when its bytes are valid JSON decoding
to `j`, `none` when `json.loads` would raise. -/
def Frame : Type :=
  Option Json

/-- Embedding of `json.loads` applied to every frame (the list comprehension in
`load_from_frames` decodes all frames before the 4-tuple unpack). -/
def framesToJson : List Frame → Except PyErr (List Json)
  | [] => .ok []
  | f :: fs =>
    match f with
    | some j =>
      match framesToJson fs with
      | .ok js => .ok (j :: js)
      | .error e => .error e
    | none => .error .valueError

/-- Payload encoding in `Envelope.convert_to_frames`: a typed payload
serializes itself (`json.dumps` of its slot list); a raw payload lacks
`serialize`, so the `AttributeError` fallback applies plain `json.dumps`. -/
def dataToJson : EnvData → Json
  | .typed _ slots => .arr (pyToJsonList slots)
  | .raw v => pyToJson v

/-- Embedding of `Envelope.convert_to_frames`: refresh the timestamp to the current
time `now`, then emit the four frames `topic, origin, data, ts`, each
independently JSON-encoded. Total: it succeeds for every representable
payload. -/
def Envelope.convert_to_frames (e : Envelope) (now : ℚ) : List Frame :=
  [some (pyToJson e.topic), some (pyToJson e.origin), some (dataToJson e.data), some (.num now)]

/-- Embedding of `Envelope.load_from_frames`: JSON-decode all frames, unpack exactly
four (`ValueError` otherwise), inspect `data[0]`, optionally re-hydrate a
typed payload, and build the envelope. `now` stands for the `time.time()`
calls made during decoding. -/
def Envelope.load_from_frames (frames : List Frame) (now : ℚ) : Except PyErr Envelope :=
  match framesToJson frames with
  | .error e => .error e
  | .ok [t, o, d, tsj] =>
    match decodePayload (jsonToPy d) now with
    | .error e => .error e
    | .ok data => .ok (Envelope.init (jsonToPy t) (jsonToPy o) data (jsonToPy tsj) now)
  | .ok _ => .error .valueError

/-- The slot values of `hermes.Quote` (slot order `dtype, ts, pair, price,
size, side, api_ts, uid`). `price`, `size` and `side` are stored as
strings by the constructor. -/
structure QuoteFields where
  dtype : String
  ts : ℚ
  pair : PyVal
  price : String
  size : String
  side : String
  api_ts : ℚ
  uid : PyVal

/-- The side whitelist of `PricedMessage.__init__`. -/
def sideAllowed (s : String) : Bool :=
  ["bid", "ask", "buy", "sell", "N/A"].contains s

/-- Embedding of `Quote.__init__` (via `PricedMessage.__init__` and
`Message.__init__`): stringify `price` and `size`, validate `side`
(`ValueError` otherwise), default `api_ts` and `ts` to the current time
when falsy. A non-string `side` is never in the whitelist tuple, hence
also a `ValueError`. -/
def Quote.init (pair price size side uid : PyVal) (api_ts ts : Option ℚ) (now : ℚ) :
    Except PyErr QuoteFields :=
  match side with
  | .str s =>
    if sideAllowed s then
      .ok
        { dtype := "Quote"
          ts := match ts with | some t => if t = 0 then now else t | none => now
          pair := pair
          price := pyStr price
          size := pyStr size
          side := s
          api_ts := match api_ts with | some t => if t = 0 then now else t | none => now
          uid := uid }
    else .error .valueError
  | _ => .error .valueError

/-- The body of `Quote.__add__` (the function passed to `check_pairs`):
with equal sides and equal prices, build
`Quote(self.pair, self.price, self.size + other.size, self.side)` — note
`+` on the stored string fields is concatenation; a differing side
executes `raise IncompatibleSidesError`, a name that is neither defined
nor imported in `structs.py`, so a `NameError` is raised; a differing
price raises a `ValueError`. -/
def Quote.add_body (self other : QuoteFields) (now : ℚ) : Except PyErr QuoteFields :=
  if other.side = self.side ∧ self.price = other.price then
    Quote.init self.pair (.str self.price) (.str (self.size ++ other.size)) (.str self.side)
      .none none none now
  else if other.side ≠ self.side then .error .nameError
  else .error .valueError

/-- The documented intent of the `check_pairs` decorator
(`hermes/utils.py`): run the wrapped function after checking that the two
operands have equal `pair` attributes, raising `IncompatiblePairsError`
otherwise. -/
def check_pairs_wrapper (f : QuoteFields → QuoteFields → Except PyErr QuoteFields)
    (self other : QuoteFields) : Except PyErr QuoteFields :=
  if pyEq self.pair other.pair then f self other else .error .incompatiblePairsError

/-- What `check_pairs` actually returns. In `hermes/utils.py` the inner
`wrapper` is decorated with `@wraps` — `functools.wraps` applied WITHOUT
arguments — so `check_pairs(func)` evaluates to
`functools.partial(functools.update_wrapper, wrapped=wrapper)`. Invoking
that object with the two operands binds them to `update_wrapper`'s
`wrapper` and `wrapped` parameters, and the pre-bound keyword
`wrapped=wrapper` collides with the positional one: every call raises
`TypeError("update_wrapper() got multiple values for argument 'wrapped'")`
before the pair check or `func` can run. -/
def check_pairs (_f : QuoteFields → QuoteFields → Except PyErr QuoteFields)
    (_self _other : QuoteFields) : Except PyErr QuoteFields :=
  .error .typeError

/-- Embedding of `Quote.__add__` as the source defines it: `add_body` under the
(broken) `check_pairs` decorator. -/
def Quote.add (self other : QuoteFields) (now : ℚ) : Except PyErr QuoteFields :=
  check_pairs (fun a b => Quote.add_body a b now) self other

/-- Embedding of `Quote.__add__` as documented: `add_body` under the pair check the
decorator was meant to install. -/
def Quote.add_intended (self other : QuoteFields) (now : ℚ) : Except PyErr QuoteFields :=
  check_pairs_wrapper (fun a b => Quote.add_body a b now) self other

/-- The slot values of `hermes.Candle` (slot order `dtype, ts, pair, open,
high, low, close, frame`). The four OHLC fields are stored as strings by
the constructor. -/
structure CandleFields where
  dtype : String
  ts : ℚ
  pair : PyVal
  open_ : String
  high : String
  low : String
  close : String
  frame : PyVal

/-- Embedding of `Candle.__init__`: `str()` is applied to all four OHLC arguments (so
an omitted value, defaulting to `None`, is stored as the string `"None"`);
`frame` is stored unchanged; `ts` defaults to the current time when falsy
(`Message.__init__`). -/
def Candle.init (pair _open high low close : PyVal) (ts : Option ℚ) (frame : PyVal) (now : ℚ) :
    CandleFields :=
  { dtype := "Candle"
    ts := match ts with | some t => if t = 0 then now else t | none => now
    pair := pair
    open_ := pyStr _open
    high := pyStr high
    low := pyStr low
    close := pyStr close
    frame := frame }

/-- Embedding of `Candle.empty()`: `Candle(None)`. -/
def Candle.empty (now : ℚ) : CandleFields :=
  Candle.init .none .none .none .none .none none .none now

/-- Python `max(..., key=k)`: fold keeping the current best unless a
strictly greater key appears (the first maximal element wins ties). -/
def pyMaxBy {α β : Type} [LinearOrder β] (key : α → β) (x : α) (xs : List α) : α :=
  xs.foldl (fun b c => if key b < key c then c else b) x

/-- Python `min(..., key=k)`: fold keeping the current best unless a
strictly smaller key appears (the first minimal element wins ties). -/
def pyMinBy {α β : Type} [LinearOrder β] (key : α → β) (x : α) (xs : List α) : α :=
  xs.foldl (fun b c => if key c < key b then c else b) x

/-- Embedding of `Candle.merge`: `max`/`min` of the stored (string) high/low values,
open of the candle with the smallest `ts`, close of the candle with the
biggest `ts`, `frame = (last.ts - first.ts) + last.frame` (a `TypeError`
if the latest candle's frame is not a number), all rebuilt through
`Candle.__init__` with `self.pair` and the earliest timestamp. -/
def Candle.merge (self : CandleFields) (others : List CandleFields) (now : ℚ) :
    Except PyErr CandleFields :=
  -- highs = [c.high for c in (self, *others)]; max(highs) folds from its
  -- first element, and likewise for lows/min.
  let last_candle := pyMaxBy (fun c => c.ts) self others
  let first_candle := pyMinBy (fun c => c.ts) self others
  match last_candle.frame with
  | .num f =>
    .ok (Candle.init self.pair (.str first_candle.open_)
      (.str (pyMaxBy id self.high (others.map (fun c => c.high))))
      (.str (pyMinBy id self.low (others.map (fun c => c.low))))
      (.str last_candle.close) (some first_candle.ts)
      (.num ((last_candle.ts - first_candle.ts) + f)) now)
  | _ => .error .typeError

/-- The slot values of `hermes.Trades` (slot order `dtype, ts, trades`). -/
structure TradesFields where
  dtype : String
  ts : ℚ
  trades : List PyVal

/-- The per-item `len` pass over a list (the generator inside `all(...)`
of the `Trades` assert and `Book.format_quotes`): a `TypeError` from
`len()` propagates. -/
def pyLens : List PyVal → Except PyErr (List Nat)
  | [] => .ok []
  | i :: is =>
    match pyLen i with
    | .ok n =>
      match pyLens is with
      | .ok ns => .ok (n :: ns)
      | .error e => .error e
    | .error e => .error e

/-- Embedding of `Trades.__init__`: with a non-empty argument tuple, assert every trade
has exactly 7 items (`AssertionError` otherwise), then rebuild each trade
as a list applying `str(x) if x else x` to every element — truthy elements
(including `misc`) are stringified, falsy ones (`None`, `0`, `""`, empty
containers) are kept as they are. -/
def Trades.init (trades : List PyVal) (ts : Option ℚ) (now : ℚ) : Except PyErr TradesFields :=
  let tsv : ℚ := match ts with | some t => if t = 0 then now else t | none => now
  match trades with
  | [] => .ok { dtype := "Trades", ts := tsv, trades := [] }
  | _ =>
    match pyLens trades with
    | .error e => .error e
    | .ok lens =>
      if lens.all (fun n => n == 7) then
        .ok
          { dtype := "Trades"
            ts := tsv
            trades :=
              trades.map (fun t =>
                .list ((pyElems t).map (fun x => if pyTruthy x then .str (pyStr x) else x))) }
      else .error .assertionError

/-- The slot values of `hermes.Book` / `hermes.RawBook` (slot order
`dtype, ts, bids, asks, pair`). -/
structure BookFields where
  dtype : String
  ts : ℚ
  bids : PyVal
  asks : PyVal
  pair : PyVal

/-- Shared body of `Book.format_quotes` (arity 3) and
`RawBook.format_quotes` (arity 4) on the elements of the outer list or
tuple: require `len(item) == k` for every item (a `TypeError` from `len`
on an unsized item propagates) and every iterated element to be a string,
then return `tuple(tuple(item) for item in items)`; otherwise raise the
descriptive `TypeError`. -/
def formatQuotesAux (k : Nat) (items : List PyVal) : Except PyErr PyVal :=
  match pyLens items with
  | .error e => .error e
  | .ok lens =>
    if lens.all (fun n => n == k) && items.all (fun i => (pyElems i).all isStrV) then
      .ok (.tup (items.map (fun i => .tup (pyElems i))))
    else .error .typeError

/-- Embedding of `Book.format_quotes`: the outer argument must be a list or tuple
(`TypeError` otherwise); each item must have `len == 3` and consist of
strings. -/
def Book.format_quotes (iterable : PyVal) : Except PyErr PyVal :=
  match iterable with
  | .list items => formatQuotesAux 3 items
  | .tup items => formatQuotesAux 3 items
  | _ => .error .typeError

/-- Embedding of `RawBook.format_quotes`: identical to `Book.format_quotes` but with
four-item quotes. -/
def RawBook.format_quotes (iterable : PyVal) : Except PyErr PyVal :=
  match iterable with
  | .list items => formatQuotesAux 4 items
  | .tup items => formatQuotesAux 4 items
  | _ => .error .typeError

/-- Embedding of `Book.__init__`: format bids then asks (any failure propagates, so no
partially validated book is ever produced). -/
def Book.init (pair bids asks : PyVal) (ts : Option ℚ) (now : ℚ) : Except PyErr BookFields :=
  match Book.format_quotes bids with
  | .error e => .error e
  | .ok bids_f =>
    match Book.format_quotes asks with
    | .error e => .error e
    | .ok asks_f =>
      .ok
        { dtype := "Book"
          ts := match ts with | some t => if t = 0 then now else t | none => now
          bids := bids_f
          asks := asks_f
          pair := pair }

/-- Embedding of `RawBook.__init__` (inherited `Book.__init__` dispatching to the
overridden `format_quotes`). -/
def RawBook.init (pair bids asks : PyVal) (ts : Option ℚ) (now : ℚ) : Except PyErr BookFields :=
  match RawBook.format_quotes bids with
  | .error e => .error e
  | .ok bids_f =>
    match RawBook.format_quotes asks with
    | .error e => .error e
    | .ok asks_f =>
      .ok
        { dtype := "RawBook"
          ts := match ts with | some t => if t = 0 then now else t | none => now
          bids := bids_f
          asks := asks_f
          pair := pair }

/-- The mutable state of a `hermes.Receiver` worker: the `_running` event,
the staleness `timeout`, the origin allow-list `_exchanges` and the
delivery queue `q`. -/
structure ReceiverState where
  running : Bool
  timeout : ℚ
  exchanges : List String
  q : List Envelope

/-- Embedding of `Receiver.__init__`: `timeout` is set to `1` (second); a falsy
`exchanges` argument (absent or the empty list) leaves the allow-list
disabled; the queue starts empty and `_running` unset. -/
def Receiver.init (exchanges : Option (List String)) : ReceiverState :=
  { running := false
    timeout := 1
    exchanges := match exchanges with | some l => l | none => []
    q := [] }

/-- One poll of the receiver socket: either no message is pending
(`zmq.error.Again`) or a multi-frame message arrives at wall-clock time
`recvAt`. -/
inductive RecvEvent
  | again
  | msg (recvAt : ℚ) (frames : List Frame)

/-- The membership test `envelope.origin in self._exchanges` for a (string) allow-list: string
membership by equality; a non-string origin never equals a string. -/
def originIn (origin : PyVal) (exchanges : List String) : Bool :=
  match origin with
  | .str s => exchanges.contains s
  | _ => false

/-- One iteration of the `Receiver.run` loop body, given that `_running`
was observed set: `Again` just continues; a decode failure is caught only
when it is a `KeyError` (logged and skipped) — any other exception
propagates and kills the thread (modelled as the `.error` result); then
the origin filter, then the staleness kill switch
(`recv_at - float(envelope.ts) > self.timeout` clears `_running`), and
finally `self.q.put(envelope)`. -/
def Receiver.step (s : ReceiverState) (ev : RecvEvent) : Except PyErr ReceiverState :=
  match ev with
  | .again => .ok s
  | .msg recvAt frames =>
    match Envelope.load_from_frames frames recvAt with
    | .error .keyError => .ok s
    | .error e => .error e
    | .ok envelope =>
      if !s.exchanges.isEmpty && !originIn envelope.origin s.exchanges then .ok s
      else
        match pyFloat envelope.ts with
        | .error e => .error e
        | .ok tsf =>
          if s.timeout < recvAt - tsf then .ok { s with running := false }
          else .ok { s with q := s.q ++ [envelope] }

/-- The `while self._running.is_set():` loop of `Receiver.run`, driven by
a finite schedule of socket polls: the flag is checked before every poll,
and an uncaught exception terminates the loop (and the thread) at once. -/
def Receiver.runLoop (s : ReceiverState) (evs : List RecvEvent) : Except PyErr ReceiverState :=
  match evs with
  | [] => .ok s
  | ev :: rest =>
    if s.running then
      match Receiver.step s ev with
      | .ok s2 => Receiver.runLoop s2 rest
      | .error e => .error e
    else .ok s

/-- Embedding of `Receiver.recv(block, timeout)`: if the queue is non-empty, pop and
return its oldest entry; otherwise return `None` immediately — the
`block`/`timeout` arguments are only ever forwarded to `Queue.get` on a
non-empty queue. -/
def Receiver.recv (s : ReceiverState) (_block : Bool) (_timeout : Option ℚ) :
    Option Envelope × ReceiverState :=
  match s.q with
  | [] => (none, s)
  | e :: rest => (some e, { s with q := rest })

/-- The state of a `hermes.Publisher` visible to `publish`: whether the
outbound socket exists, and the frames handed to the internal PUSH
socket. -/
structure PublisherState where
  sock : Bool
  sent : List (List Frame)

/-- Embedding of `Publisher.publish`: if the socket is not established, return `False`
without sending; otherwise push the envelope's frames onto the internal
handoff socket and return `True`. -/
def Publisher.publish (p : PublisherState) (e : Envelope) (now : ℚ) : Bool × PublisherState :=
  if p.sock then (true, { p with sent := p.sent ++ [e.convert_to_frames now] })
  else (false, p)

/-- A `hermes.Node`: a name plus optional receiver and publisher
facilities. -/
structure NodeState where
  name : String
  receiver : Option ReceiverState
  publisher : Option PublisherState

/-- Embedding of `Node.publish`: build `Envelope(channel + '/' + self.name, self.name,
data)` and delegate to the publisher; with no publisher the attribute
access raises `AttributeError`, which is turned into
`NotImplementedError`. -/
def NodeState.publish (n : NodeState) (channel : String) (data : EnvData) (now : ℚ) :
    Except PyErr (Bool × NodeState) :=
  let envelope := Envelope.init (.str (channel ++ "/" ++ n.name)) (.str n.name) data .none now
  match n.publisher with
  | none => .error .notImplementedError
  | some p =>
    let r := Publisher.publish p envelope now
    .ok (r.1, { n with publisher := some r.2 })

/-- Embedding of `Node.recv`: delegate to the receiver; with no receiver the attribute
access raises `AttributeError`, which is turned into
`NotImplementedError`. -/
def NodeState.recv (n : NodeState) (block : Bool) (timeout : Option ℚ) :
    Except PyErr (Option Envelope × NodeState) :=
  match n.receiver with
  | none => .error .notImplementedError
  | some r =>
    let res := Receiver.recv r block timeout
    .ok (res.1, { n with receiver := some res.2 })

lemma jsonToPyList_eq_map (l : List Json) : jsonToPyList l = l.map jsonToPy := by
  induction l with
  | nil => rfl
  | cons x xs ih => simp [jsonToPyList, ih]

lemma pyToJsonList_eq_map (l : List PyVal) : pyToJsonList l = l.map pyToJson := by
  induction l with
  | nil => rfl
  | cons x xs ih => simp [pyToJsonList, ih]

lemma jsonNorm_list (l : List PyVal) : jsonToPyList (pyToJsonList l) = l.map jsonNorm := by
  simp [jsonToPyList_eq_map, pyToJsonList_eq_map, List.map_map, jsonNorm, Function.comp]

lemma hydrate_full (d xs : List PyVal) (h : xs.length = d.length) : hydrate d xs = xs := by
  unfold hydrate
  rw [← h, List.take_length, h, List.drop_length, List.append_nil]

lemma emptyFields_length (k : TypedKind) (now : ℚ) : (emptyFields k now).length = slotCount k := by
  cases k <;> rfl

lemma kindOfName_kindName (k : TypedKind) : kindOfName (kindName k) = some k := by
  cases k <;> rfl

lemma kindOfName_len_one (s : String) (h : s.length = 1) : kindOfName s = none := by
  unfold kindOfName
  split_ifs with h1 h2 h3 h4 h5 h6 h7
  · exact absurd h (by subst h1; decide)
  · exact absurd h (by subst h2; decide)
  · exact absurd h (by subst h3; decide)
  · exact absurd h (by subst h4; decide)
  · exact absurd h (by subst h5; decide)
  · exact absurd h (by subst h6; decide)
  · exact absurd h (by subst h7; decide)
  · rfl

lemma singleton_length (c : Char) : (String.singleton c).length = 1 := rfl

lemma pyMaxBy_cons {α β : Type} [LinearOrder β] (key : α → β) (x y : α) (ys : List α) :
    pyMaxBy key x (y :: ys) = pyMaxBy key (if key x < key y then y else x) ys := rfl

lemma pyMinBy_cons {α β : Type} [LinearOrder β] (key : α → β) (x y : α) (ys : List α) :
    pyMinBy key x (y :: ys) = pyMinBy key (if key y < key x then y else x) ys := rfl

lemma pyMaxBy_mem {α β : Type} [LinearOrder β] (key : α → β) :
    ∀ (xs : List α) (x : α), pyMaxBy key x xs ∈ x :: xs := by
  intro xs
  induction xs with
  | nil => intro x; simp [pyMaxBy]
  | cons y ys ih =>
    intro x
    rw [pyMaxBy_cons]
    by_cases hxy : key x < key y
    · rw [if_pos hxy]
      rcases List.mem_cons.mp (ih y) with h1 | h1
      · rw [h1]; exact List.mem_cons_of_mem _ (List.mem_cons_self _ _)
      · exact List.mem_cons_of_mem _ (List.mem_cons_of_mem _ h1)
    · rw [if_neg hxy]
      rcases List.mem_cons.mp (ih x) with h1 | h1
      · rw [h1]; exact List.mem_cons_self _ _
      · exact List.mem_cons_of_mem _ (List.mem_cons_of_mem _ h1)

lemma pyMinBy_mem {α β : Type} [LinearOrder β] (key : α → β) :
    ∀ (xs : List α) (x : α), pyMinBy key x xs ∈ x :: xs := by
  intro xs
  induction xs with
  | nil => intro x; simp [pyMinBy]
  | cons y ys ih =>
    intro x
    rw [pyMinBy_cons]
    by_cases hxy : key y < key x
    · rw [if_pos hxy]
      rcases List.mem_cons.mp (ih y) with h1 | h1
      · rw [h1]; exact List.mem_cons_of_mem _ (List.mem_cons_self _ _)
      · exact List.mem_cons_of_mem _ (List.mem_cons_of_mem _ h1)
    · rw [if_neg hxy]
      rcases List.mem_cons.mp (ih x) with h1 | h1
      · rw [h1]; exact List.mem_cons_self _ _
      · exact List.mem_cons_of_mem _ (List.mem_cons_of_mem _ h1)

lemma pyMaxBy_is_ub {α β : Type} [LinearOrder β] (key : α → β) :
    ∀ (xs : List α) (x : α), ∀ a ∈ x :: xs, key a ≤ key (pyMaxBy key x xs) := by
  intro xs
  induction xs with
  | nil =>
    intro x a ha
    rcases List.mem_cons.mp ha with h | h
    · subst h; simp [pyMaxBy]
    · simp at h
  | cons y ys ih =>
    intro x a ha
    rw [pyMaxBy_cons]
    have hm : key (if key x < key y then y else x) ≤
        key (pyMaxBy key (if key x < key y then y else x) ys) :=
      ih _ _ (List.mem_cons_self _ _)
    rcases List.mem_cons.mp ha with h | h
    · subst h
      by_cases hxy : key a < key y
      · rw [if_pos hxy] at hm ⊢
        exact le_trans (le_of_lt hxy) hm
      · rw [if_neg hxy] at hm ⊢
        exact hm
    · rcases List.mem_cons.mp h with h1 | h1
      · subst h1
        by_cases hxy : key x < key a
        · rw [if_pos hxy] at hm ⊢
          exact hm
        · rw [if_neg hxy] at hm ⊢
          exact le_trans (le_of_not_lt hxy) hm
      · exact ih _ _ (List.mem_cons_of_mem _ h1)

lemma pyMinBy_is_lb {α β : Type} [LinearOrder β] (key : α → β) :
    ∀ (xs : List α) (x : α), ∀ a ∈ x :: xs, key (pyMinBy key x xs) ≤ key a := by
  intro xs
  induction xs with
  | nil =>
    intro x a ha
    rcases List.mem_cons.mp ha with h | h
    · subst h; simp [pyMinBy]
    · simp at h
  | cons y ys ih =>
    intro x a ha
    rw [pyMinBy_cons]
    have hm : key (pyMinBy key (if key y < key x then y else x) ys) ≤
        key (if key y < key x then y else x) :=
      ih _ _ (List.mem_cons_self _ _)
    rcases List.mem_cons.mp ha with h | h
    · subst h
      by_cases hxy : key y < key a
      · rw [if_pos hxy] at hm ⊢
        exact le_trans hm (le_of_lt hxy)
      · rw [if_neg hxy] at hm ⊢
        exact hm
    · rcases List.mem_cons.mp h with h1 | h1
      · subst h1
        by_cases hxy : key a < key x
        · rw [if_pos hxy] at hm ⊢
          exact hm
        · rw [if_neg hxy] at hm ⊢
          exact le_trans hm (le_of_not_lt hxy)
      · exact ih _ _ (List.mem_cons_of_mem _ h1)

lemma pyMaxBy_eq_of_unique {α β : Type} [LinearOrder β] (key : α → β)
    (xs : List α) (x a : α) (ha : a ∈ x :: xs)
    (huniq : ∀ b ∈ x :: xs, b ≠ a → key b < key a) : pyMaxBy key x xs = a := by
  by_contra hne
  have h1 : key (pyMaxBy key x xs) < key a := huniq _ (pyMaxBy_mem key xs x) hne
  have h2 : key a ≤ key (pyMaxBy key x xs) := pyMaxBy_is_ub key xs x a ha
  exact absurd (lt_of_le_of_lt h2 h1) (lt_irrefl _)

lemma pyMinBy_eq_of_unique {α β : Type} [LinearOrder β] (key : α → β)
    (xs : List α) (x a : α) (ha : a ∈ x :: xs)
    (huniq : ∀ b ∈ x :: xs, b ≠ a → key a < key b) : pyMinBy key x xs = a := by
  by_contra hne
  have h1 : key a < key (pyMinBy key x xs) := huniq _ (pyMinBy_mem key xs x) hne
  have h2 : key (pyMinBy key x xs) ≤ key a := pyMinBy_is_lb key xs x a ha
  exact absurd (lt_of_lt_of_le h1 h2) (lt_irrefl _)

lemma runLoop_of_not_running (s : ReceiverState) (evs : List RecvEvent)
    (h : s.running = false) : Receiver.runLoop s evs = .ok s := by
  cases evs with
  | nil => rfl
  | cons ev rest => simp [Receiver.runLoop, h]

lemma pyLens_const (k : Nat) :
    ∀ (items : List PyVal), (∀ i ∈ items, pyLen i = .ok k) →
      pyLens items = .ok (items.map fun _ => k) := by
  intro items
  induction items with
  | nil => intro _; rfl
  | cons i is ih =>
    intro h
    have hi : pyLen i = .ok k := h i (List.mem_cons_self _ _)
    have his : pyLens is = .ok (is.map fun _ => k) :=
      ih (fun j hj => h j (List.mem_cons_of_mem _ hj))
    simp [pyLens, hi, his]

lemma pyLens_ok_exists :
    ∀ (items : List PyVal), (∀ i ∈ items, ∃ n, pyLen i = .ok n) →
      ∃ ns, pyLens items = .ok ns := by
  intro items
  induction items with
  | nil => intro _; exact ⟨[], rfl⟩
  | cons i is ih =>
    intro h
    obtain ⟨n, hn⟩ := h i (List.mem_cons_self _ _)
    obtain ⟨ns, hns⟩ := ih (fun j hj => h j (List.mem_cons_of_mem _ hj))
    exact ⟨n :: ns, by simp [pyLens, hn, hns]⟩

lemma pyLens_all_false (k : Nat) :
    ∀ (items : List PyVal) (ns : List Nat), pyLens items = .ok ns →
      (∃ i ∈ items, pyLen i ≠ .ok k) → ns.all (fun n => n == k) = false := by
  intro items
  induction items with
  | nil =>
    intro ns _ hbad
    obtain ⟨i, hi, _⟩ := hbad
    simp at hi
  | cons i is ih =>
    intro ns hns hbad
    unfold pyLens at hns
    rcases hl : pyLen i with e | n
    · rw [hl] at hns; exact absurd hns (by simp)
    · rw [hl] at hns
      rcases hls : pyLens is with e | ms
      · rw [hls] at hns; exact absurd hns (by simp)
      · rw [hls] at hns
        have hns2 : ns = n :: ms := by
          cases hns; rfl
        subst hns2
        obtain ⟨j, hj, hjk⟩ := hbad
        rcases List.mem_cons.mp hj with h1 | h1
        · subst h1
          have hfalse : (n == k) = false := by
            apply beq_eq_false_iff_ne.mpr
            intro he
            exact hjk (by rw [hl, he])
          simp [List.all_cons, hfalse]
        · have := ih ms hls ⟨j, h1, hjk⟩
          simp [List.all_cons, this]

lemma decodePayload_typed (k : TypedKind) (slots : List PyVal) (now : ℚ)
    (hh : slots.head? = some (.str (kindName k)))
    (hl : slots.length = slotCount k) :
    decodePayload (.list slots) now = .ok (.typed k slots) := by
  cases slots with
  | nil => simp at hh
  | cons a tl =>
    have ha : a = .str (kindName k) := by simpa using hh
    subst ha
    have hlen : (PyVal.str (kindName k) :: tl).length = (emptyFields k now).length := by
      rw [emptyFields_length]; exact hl
    simp [decodePayload, dataSub0, kindOfName_kindName, pyElems, hydrate_full _ _ hlen]

/-- Raw payloads on which `load_from_frames`'s `data[0]` probe is harmless:
a non-empty string (its first character is a one-character string, never a
registered class name) or a non-empty list whose head is not a registered
class-name string. -/
def rawHeadOk : PyVal → Bool
  | .str s => !s.toList.isEmpty
  | .list (x :: _) =>
    match x with
    | .str s => (kindOfName s).isNone
    | _ => true
  | _ => false

lemma decodePayload_raw (v : PyVal) (now : ℚ) (hr : rawHeadOk v = true) :
    decodePayload v now = .ok (.raw v) := by
  cases v with
  | str s =>
    cases hs : s.toList with
    | nil => rw [rawHeadOk, hs] at hr; simp at hr
    | cons c cs =>
      have h1 : kindOfName (String.singleton c) = none :=
        kindOfName_len_one _ (singleton_length c)
      have hs2 : s.data = c :: cs := hs
      simp [decodePayload, dataSub0, hs2, h1]
  | list xs =>
    cases xs with
    | nil => simp [rawHeadOk] at hr
    | cons x rest =>
      cases x with
      | str s =>
        have h1 : kindOfName s = none := by
          rw [rawHeadOk] at hr
          simpa [Option.isNone_iff_eq_none] using hr
        simp [decodePayload, dataSub0, h1]
      | none => simp [decodePayload, dataSub0]
      | bool b => simp [decodePayload, dataSub0]
      | num q => simp [decodePayload, dataSub0]
      | list ys => simp [decodePayload, dataSub0]
      | tup ys => simp [decodePayload, dataSub0]
      | dict kvs => simp [decodePayload, dataSub0]
  | none => simp [rawHeadOk] at hr
  | bool b => simp [rawHeadOk] at hr
  | num q => simp [rawHeadOk] at hr
  | tup xs => simp [rawHeadOk] at hr
  | dict kvs => simp [rawHeadOk] at hr

lemma load_convert (topic origin : PyVal) (data : EnvData) (ts0 : PyVal) (now now2 : ℚ) :
    Envelope.load_from_frames (Envelope.convert_to_frames ⟨topic, origin, data, ts0⟩ now) now2 =
      match decodePayload (jsonToPy (dataToJson data)) now2 with
      | .error e => .error e
      | .ok d2 => .ok (Envelope.init (jsonNorm topic) (jsonNorm origin) d2 (.num now) now2) :=
  rfl

/-- C1: round-trip identity of the envelope codec. The claim as frozen —
that decoding the encoding succeeds and preserves topic, origin and
payload for every JSON-compatible payload, including numbers and
mappings — is FALSE: `load_from_frames` probes `data[0]` outside any
exception handler, so a numeric payload raises `TypeError`, a mapping
raises `KeyError` and an empty list raises `IndexError`. The amended
statement proved here: encoding is total (always exactly four valid-JSON
frames); for a payload that is a typed payload with JSON-stable slots
(tag in slot 0, full slot list) or a raw value that decodes to a
non-empty string or a non-empty list not headed by a registered type tag,
`load_from_frames (convert_to_frames e)` reproduces topic, origin and the
payload exactly, and the decoded timestamp is the encode-call time; while
number, mapping and empty-list payloads make the decode raise. -/
theorem C1_round_trip
    (e : Envelope) (topic origin v : PyVal) (k : TypedKind) (slots : List PyVal)
    (ts0 : PyVal) (q : ℚ) (kvs : List (String × PyVal)) (now now2 : ℚ)
    (hnow : 0 < now)
    (ht : jsonNorm topic = topic) (ho : jsonNorm origin = origin)
    (hs : slots.map jsonNorm = slots)
    (hh : slots.head? = some (.str (kindName k)))
    (hl : slots.length = slotCount k)
    (hv : jsonNorm v = v) (hr : rawHeadOk v = true) :
    ((Envelope.convert_to_frames e now).length = 4
        ∧ ∀ f ∈ Envelope.convert_to_frames e now, f.isSome = true)
      ∧ Envelope.load_from_frames
          (Envelope.convert_to_frames ⟨topic, origin, .typed k slots, ts0⟩ now) now2
          = .ok ⟨topic, origin, .typed k slots, .num now⟩
      ∧ Envelope.load_from_frames
          (Envelope.convert_to_frames ⟨topic, origin, .raw v, ts0⟩ now) now2
          = .ok ⟨topic, origin, .raw v, .num now⟩
      ∧ Envelope.load_from_frames
          (Envelope.convert_to_frames ⟨topic, origin, .raw (.num q), ts0⟩ now) now2
          = .error .typeError
      ∧ Envelope.load_from_frames
          (Envelope.convert_to_frames ⟨topic, origin, .raw (.dict kvs), ts0⟩ now) now2
          = .error .keyError
      ∧ Envelope.load_from_frames
          (Envelope.convert_to_frames ⟨topic, origin, .raw (.list []), ts0⟩ now) now2
          = .error .indexError := by
  refine ⟨⟨rfl, ?_⟩, ?_, ?_, rfl, rfl, rfl⟩
  · intro f hf
    simp [Envelope.convert_to_frames] at hf
    rcases hf with rfl | rfl | rfl | rfl <;> rfl
  · rw [load_convert]
    have hd : jsonToPy (dataToJson (.typed k slots)) = .list slots := by
      simp [dataToJson, jsonToPy, jsonNorm_list, hs]
    rw [hd, decodePayload_typed k slots now2 hh hl]
    simp [Envelope.init, pyTruthy, hnow.ne', ht, ho]
  · rw [load_convert]
    have hd : jsonToPy (dataToJson (.raw v)) = v := hv
    rw [hd, decodePayload_raw v now2 hr]
    simp [Envelope.init, pyTruthy, hnow.ne', ht, ho]

/-- C1, counterexample to the claim as frozen: an envelope whose payload
is the JSON-compatible number `5` encodes fine, but decoding the produced
frames raises a `TypeError` (`data[0]` on an `int`), so the round trip
does not reproduce the envelope. -/
theorem C1_counterexample :
    Envelope.load_from_frames
      (Envelope.convert_to_frames ⟨.str "quotes", .str "NodeX", .raw (.num 5), .none⟩ 1) 2
      = .error .typeError :=
  rfl

/-- C1, witness: the amended round trip evaluated on a concrete typed
(Quote) payload. -/
theorem C1_round_trip_witness :
    Envelope.load_from_frames
      (Envelope.convert_to_frames
        ⟨.str "quotes/ex1", .str "NodeX",
          .typed .quote
            [.str "Quote", .num 1, .str "BTCUSD", .str "1000", .str "10", .str "bid", .num 1,
              .none], .none⟩ 2) 3
      = .ok ⟨.str "quotes/ex1", .str "NodeX",
          .typed .quote
            [.str "Quote", .num 1, .str "BTCUSD", .str "1000", .str "10", .str "bid", .num 1,
              .none], .num 2⟩ :=
  (C1_round_trip ⟨.str "x", .str "y", .raw .none, .none⟩ (.str "quotes/ex1") (.str "NodeX")
    (.list [.str "data"]) .quote
    [.str "Quote", .num 1, .str "BTCUSD", .str "1000", .str "10", .str "bid", .num 1, .none]
    .none 5 [] 2 3 (by norm_num) rfl rfl rfl rfl rfl rfl (by decide)).2.1

/-- C2: handling of malformed wire data in the Receiver run loop. The
claim as frozen — that every malformed message (wrong frame count or
non-JSON frames) is logged, discarded, and the loop continues — is FALSE:
the loop catches only `KeyError`. The amended statement proved here: a
message whose decode raises `KeyError` (e.g. a JSON-object payload) is
discarded and the loop continues with the queue unchanged; a wrong frame
count or a non-JSON frame raises `ValueError`, which is NOT caught, so the
uncaught exception terminates the run loop (the worker thread dies); in
neither case is the malformed message delivered. -/
theorem C2_malformed (s : ReceiverState) (recvAt : ℚ) (frames1 frames2 : List Frame)
    (evs : List RecvEvent) (j : Json)
    (hrun : s.running = true)
    (hk : Envelope.load_from_frames frames1 recvAt = .error .keyError)
    (hv : Envelope.load_from_frames frames2 recvAt = .error .valueError) :
    Receiver.step s (.msg recvAt frames1) = .ok s
      ∧ Receiver.runLoop s (.msg recvAt frames1 :: evs) = Receiver.runLoop s evs
      ∧ Receiver.step s (.msg recvAt frames2) = .error .valueError
      ∧ Receiver.runLoop s (.msg recvAt frames2 :: evs) = .error .valueError
      ∧ Envelope.load_from_frames [some j, some j, some j] recvAt = .error .valueError
      ∧ Envelope.load_from_frames [none, some j, some j, some j] recvAt
          = .error .valueError := by
  refine ⟨?_, ?_, ?_, ?_, rfl, rfl⟩
  · simp [Receiver.step, hk]
  · simp [Receiver.runLoop, hrun, Receiver.step, hk]
  · simp [Receiver.step, hv]
  · simp [Receiver.runLoop, hrun, Receiver.step, hv]

/-- C2, counterexample to the claim as frozen: a running receiver that
polls a three-frame (wrong frame count) message crashes with an uncaught
`ValueError` — the loop does not continue to the next poll. -/
theorem C2_counterexample :
    Receiver.runLoop ⟨true, 1, [], []⟩
      [.msg 0 [some (.str "a"), some (.str "b"), some (.str "c")], .again]
      = .error .valueError :=
  rfl

/-- C2, witness: a JSON-object payload (decode raises `KeyError`) is
skipped and the loop continues; a two-frame message (decode raises
`ValueError`) kills the loop. -/
theorem C2_malformed_witness :
    Receiver.step ⟨true, 1, [], []⟩
        (.msg 0 [some (.str "t"), some (.str "o"), some (.obj []), some (.num 1)])
        = .ok ⟨true, 1, [], []⟩
      ∧ Receiver.runLoop ⟨true, 1, [], []⟩
          [.msg 0 [some (.str "t"), some (.str "o"), some (.obj []), some (.num 1)], .again]
          = Receiver.runLoop ⟨true, 1, [], []⟩ [.again]
      ∧ Receiver.step ⟨true, 1, [], []⟩ (.msg 0 [some (.str "t"), some (.str "o")])
          = .error .valueError
      ∧ Receiver.runLoop ⟨true, 1, [], []⟩
          [.msg 0 [some (.str "t"), some (.str "o")], .again] = .error .valueError
      ∧ Envelope.load_from_frames [some .null, some .null, some .null] 0 = .error .valueError
      ∧ Envelope.load_from_frames [none, some .null, some .null, some .null] 0
          = .error .valueError :=
  C2_malformed ⟨true, 1, [], []⟩ 0
    [some (.str "t"), some (.str "o"), some (.obj []), some (.num 1)]
    [some (.str "t"), some (.str "o")] [.again] .null rfl rfl rfl

/-- C3: the staleness/backpressure kill switch. A running receiver whose
configured timeout is exceeded by `now - float(envelope.ts)` clears its
own running flag without enqueueing the stale envelope, and the run loop
then ignores every later event, so nothing further is ever appended to
the delivery queue; the default timeout set by `Receiver.__init__` is 1
second. -/
theorem C3_staleness (s : ReceiverState) (recvAt tsf : ℚ) (frames : List Frame)
    (env : Envelope) (evs : List RecvEvent) (ex : Option (List String))
    (hrun : s.running = true)
    (hload : Envelope.load_from_frames frames recvAt = .ok env)
    (hfilter : s.exchanges = [] ∨ originIn env.origin s.exchanges = true)
    (hts : pyFloat env.ts = .ok tsf)
    (hstale : s.timeout < recvAt - tsf) :
    (Receiver.init ex).timeout = 1
      ∧ Receiver.step s (.msg recvAt frames) = .ok { s with running := false }
      ∧ ({ s with running := false } : ReceiverState).q = s.q
      ∧ Receiver.runLoop s (.msg recvAt frames :: evs) = .ok { s with running := false } := by
  have hcond : (!s.exchanges.isEmpty && !originIn env.origin s.exchanges) = false := by
    rcases hfilter with h | h
    · simp [h]
    · simp [h]
  have hstep : Receiver.step s (.msg recvAt frames) = .ok { s with running := false } := by
    simp [Receiver.step, hload, hcond, hts, hstale]
  refine ⟨rfl, hstep, rfl, ?_⟩
  rw [Receiver.runLoop]
  simp only [hrun, if_true]
  rw [hstep]
  exact runLoop_of_not_running _ evs rfl

/-- C3, witness: a fresh receiver state with the default timeout 1 that
receives, at time 3, a valid envelope stamped at time 1 kills itself and
ignores a subsequent poll. -/
theorem C3_staleness_witness :
    (Receiver.init none).timeout = 1
      ∧ Receiver.step ⟨true, 1, [], []⟩
          (.msg 3 [some (.str "t"), some (.str "o"), some (.arr [.str "x"]), some (.num 1)])
          = .ok ⟨false, 1, [], []⟩
      ∧ (⟨false, 1, [], []⟩ : ReceiverState).q = (⟨true, 1, [], []⟩ : ReceiverState).q
      ∧ Receiver.runLoop ⟨true, 1, [], []⟩
          [.msg 3 [some (.str "t"), some (.str "o"), some (.arr [.str "x"]), some (.num 1)],
            .again]
          = .ok ⟨false, 1, [], []⟩ :=
  C3_staleness ⟨true, 1, [], []⟩ 3 1
    [some (.str "t"), some (.str "o"), some (.arr [.str "x"]), some (.num 1)]
    ⟨.str "t", .str "o", .raw (.list [.str "x"]), .num 1⟩ [.again] none
    rfl rfl (Or.inl rfl) rfl (by norm_num)

/-- C9: `Receiver.recv` on an empty delivery queue returns `None`
immediately for every combination of `block` and `timeout` — the guard
`if not self.q.empty()` short-circuits before `Queue.get` is ever
reached, so `recv(block=True, timeout=t)` cannot block. -/
theorem C9_recv_empty (s : ReceiverState) (block : Bool) (timeout : Option ℚ)
    (h : s.q = []) : Receiver.recv s block timeout = (none, s) := by
  simp [Receiver.recv, h]

/-- C9, witness: a blocking `recv` with a timeout on an empty-queue
receiver still returns `None` at once. -/
theorem C9_recv_empty_witness :
    Receiver.recv ⟨true, 1, [], []⟩ true (some 5) = (none, ⟨true, 1, [], []⟩) :=
  C9_recv_empty ⟨true, 1, [], []⟩ true (some 5) rfl

/-- C8: a `Node` without a publisher fails `publish` with
`NotImplementedError` (the `AttributeError` from `None.publish` is
converted), a `Node` without a receiver fails `recv` the same way, and
when the facility is present the calls delegate to
`Publisher.publish` (on the envelope built from channel, node name and
data) and `Receiver.recv` respectively. -/
theorem C8_node (name channel : String) (data : EnvData) (now : ℚ) (block : Bool)
    (timeout : Option ℚ) (r : ReceiverState) (p : PublisherState) :
    NodeState.publish ⟨name, some r, none⟩ channel data now = .error .notImplementedError
      ∧ NodeState.recv ⟨name, none, some p⟩ block timeout = .error .notImplementedError
      ∧ NodeState.publish ⟨name, some r, some p⟩ channel data now
          = .ok ((Publisher.publish p
                (Envelope.init (.str (channel ++ "/" ++ name)) (.str name) data .none now)
                now).1,
              ⟨name, some r, some (Publisher.publish p
                (Envelope.init (.str (channel ++ "/" ++ name)) (.str name) data .none now)
                now).2⟩)
      ∧ NodeState.recv ⟨name, some r, some p⟩ block timeout
          = .ok ((Receiver.recv r block timeout).1,
              ⟨name, some (Receiver.recv r block timeout).2, some p⟩) :=
  ⟨rfl, rfl, rfl, rfl⟩

/-- C10: `Candle.__init__` applies `str()` to all four OHLC arguments, so
every constructed candle stores them as strings, omitted values become
the string `"None"`, and in particular `Candle.empty()` has all four OHLC
fields equal to `"None"`. -/
theorem C10_candle_strings (pair _open high low close : PyVal) (ts : Option ℚ)
    (frame : PyVal) (now : ℚ) :
    (Candle.init pair _open high low close ts frame now).open_ = pyStr _open
      ∧ (Candle.init pair _open high low close ts frame now).high = pyStr high
      ∧ (Candle.init pair _open high low close ts frame now).low = pyStr low
      ∧ (Candle.init pair _open high low close ts frame now).close = pyStr close
      ∧ (Candle.init pair .none .none .none .none ts frame now).open_ = "None"
      ∧ (Candle.empty now).open_ = "None"
      ∧ (Candle.empty now).high = "None"
      ∧ (Candle.empty now).low = "None"
      ∧ (Candle.empty now).close = "None" :=
  ⟨rfl, rfl, rfl, rfl, rfl, rfl, rfl, rfl, rfl⟩

/-- C4: `Quote` aggregation. The claim describes the documented behavior
of `Quote.__add__`, but the code cannot deliver it: the `check_pairs`
decorator applies `functools.wraps` without arguments, so the decorated
`__add__` is a `functools.partial` of `update_wrapper` and EVERY `a + b`
raises `TypeError` (moreover the incompatible-sides branch would raise
`NameError`, since `IncompatibleSidesError` is undefined in
`structs.py`). This theorem evaluates both the code as written
(`Quote.add`, always `TypeError`) and the documented intent
(`Quote.add_intended`, which on equal pair/price/side returns the quote
with the sizes combined by `+` on the stored string fields, i.e.
concatenation) at the concrete failing input. -/
theorem C4_add_eval :
    Quote.init (.str "BTCUSD") (.num 1000) (.num 10) (.str "bid") .none none none 5
        = .ok ⟨"Quote", 5, .str "BTCUSD", "1000", "10", "bid", 5, .none⟩
      ∧ Quote.init (.str "BTCUSD") (.num 1000) (.num 5) (.str "bid") .none none none 5
        = .ok ⟨"Quote", 5, .str "BTCUSD", "1000", "5", "bid", 5, .none⟩
      ∧ Quote.add ⟨"Quote", 5, .str "BTCUSD", "1000", "10", "bid", 5, .none⟩
          ⟨"Quote", 5, .str "BTCUSD", "1000", "5", "bid", 5, .none⟩ 7
        = .error .typeError
      ∧ Quote.add_intended ⟨"Quote", 5, .str "BTCUSD", "1000", "10", "bid", 5, .none⟩
          ⟨"Quote", 5, .str "BTCUSD", "1000", "5", "bid", 5, .none⟩ 7
        = .ok ⟨"Quote", 7, .str "BTCUSD", "1000", "105", "bid", 7, .none⟩ :=
  ⟨rfl, rfl, rfl, rfl⟩

/-- C5: `Candle.merge` correctness. Merging `self` with `others` (the
non-empty collection `self :: others`) yields a candle whose `open` is the
open of the candle with the (unique) smallest `ts`, whose `close` is the
close of the candle with the (unique) largest `ts`, whose `high`/`low`
are the maximum/minimum of all the stored high/low values (Python `max`
and `min` over the stored strings), and whose `frame` is
`(latest.ts - earliest.ts) + latest.frame`, provided the latest candle's
frame is a number. -/
theorem C5_merge (self : CandleFields) (others : List CandleFields)
    (cmin cmax : CandleFields) (f now : ℚ)
    (hminMem : cmin ∈ self :: others)
    (hmaxMem : cmax ∈ self :: others)
    (hmin : ∀ c ∈ self :: others, c ≠ cmin → cmin.ts < c.ts)
    (hmax : ∀ c ∈ self :: others, c ≠ cmax → c.ts < cmax.ts)
    (hframe : cmax.frame = .num f) :
    ∃ m, Candle.merge self others now = .ok m
      ∧ m.open_ = cmin.open_
      ∧ m.close = cmax.close
      ∧ m.high ∈ (self :: others).map (fun c => c.high)
      ∧ (∀ c ∈ self :: others, c.high ≤ m.high)
      ∧ m.low ∈ (self :: others).map (fun c => c.low)
      ∧ (∀ c ∈ self :: others, m.low ≤ c.low)
      ∧ m.frame = .num ((cmax.ts - cmin.ts) + f) := by
  have hlast : pyMaxBy (fun c => c.ts) self others = cmax :=
    pyMaxBy_eq_of_unique _ others self cmax hmaxMem hmax
  have hfirst : pyMinBy (fun c => c.ts) self others = cmin :=
    pyMinBy_eq_of_unique _ others self cmin hminMem hmin
  refine ⟨Candle.init self.pair (.str cmin.open_)
      (.str (pyMaxBy id self.high (others.map (fun c => c.high))))
      (.str (pyMinBy id self.low (others.map (fun c => c.low))))
      (.str cmax.close) (some cmin.ts) (.num ((cmax.ts - cmin.ts) + f)) now,
    ?_, rfl, rfl, ?_, ?_, ?_, ?_, rfl⟩
  · unfold Candle.merge
    rw [hlast, hfirst]
    simp [hframe]
  · show pyStr (.str (pyMaxBy id self.high (others.map (fun c => c.high)))) ∈ _
    rw [pyStr, List.map_cons]
    exact pyMaxBy_mem id (others.map (fun c => c.high)) self.high
  · intro c hc
    show c.high ≤ pyStr (.str (pyMaxBy id self.high (others.map (fun c => c.high))))
    rw [pyStr]
    have hmem : c.high ∈ self.high :: others.map (fun c => c.high) := by
      rcases List.mem_cons.mp hc with h | h
      · rw [h]; exact List.mem_cons_self _ _
      · exact List.mem_cons_of_mem _ (List.mem_map_of_mem _ h)
    exact pyMaxBy_is_ub id (others.map (fun c => c.high)) self.high c.high hmem
  · show pyStr (.str (pyMinBy id self.low (others.map (fun c => c.low)))) ∈ _
    rw [pyStr, List.map_cons]
    exact pyMinBy_mem id (others.map (fun c => c.low)) self.low
  · intro c hc
    show pyStr (.str (pyMinBy id self.low (others.map (fun c => c.low)))) ≤ c.low
    rw [pyStr]
    have hmem : c.low ∈ self.low :: others.map (fun c => c.low) := by
      rcases List.mem_cons.mp hc with h | h
      · rw [h]; exact List.mem_cons_self _ _
      · exact List.mem_cons_of_mem _ (List.mem_map_of_mem _ h)
    exact pyMinBy_is_lb id (others.map (fun c => c.low)) self.low c.low hmem

/-- C5, witness: merging two concrete candles (note the string maximum of
the high fields). -/
theorem C5_merge_witness :
    ∃ m, Candle.merge ⟨"Candle", 1, .str "BTCUSD", "100", "9", "5", "150", .num 10⟩
        [⟨"Candle", 3, .str "BTCUSD", "200", "10", "4", "111", .num 2⟩] 50 = .ok m
      ∧ m.open_ = "100"
      ∧ m.close = "111"
      ∧ m.high ∈ ["9", "10"]
      ∧ (∀ c ∈ [(⟨"Candle", 1, .str "BTCUSD", "100", "9", "5", "150", .num 10⟩ : CandleFields),
          ⟨"Candle", 3, .str "BTCUSD", "200", "10", "4", "111", .num 2⟩], c.high ≤ m.high)
      ∧ m.low ∈ ["5", "4"]
      ∧ (∀ c ∈ [(⟨"Candle", 1, .str "BTCUSD", "100", "9", "5", "150", .num 10⟩ : CandleFields),
          ⟨"Candle", 3, .str "BTCUSD", "200", "10", "4", "111", .num 2⟩], m.low ≤ c.low)
      ∧ m.frame = .num ((3 - 1) + 2) :=
  C5_merge ⟨"Candle", 1, .str "BTCUSD", "100", "9", "5", "150", .num 10⟩
    [⟨"Candle", 3, .str "BTCUSD", "200", "10", "4", "111", .num 2⟩]
    ⟨"Candle", 1, .str "BTCUSD", "100", "9", "5", "150", .num 10⟩
    ⟨"Candle", 3, .str "BTCUSD", "200", "10", "4", "111", .num 2⟩ 2 50
    (List.mem_cons_self _ _)
    (List.mem_cons_of_mem _ (List.mem_cons_self _ _))
    (by
      intro c hc hne
      rcases List.mem_cons.mp hc with h | h
      · exact absurd h hne
      · rw [List.mem_singleton.mp h]; norm_num)
    (by
      intro c hc hne
      rcases List.mem_cons.mp hc with h | h
      · rw [h]; norm_num
      · exact absurd (List.mem_singleton.mp h) hne)
    rfl

lemma formatQuotesAux_ok (k : Nat) (items : List PyVal)
    (h : ∀ i ∈ items, pyLen i = .ok k ∧ (pyElems i).all isStrV = true) :
    formatQuotesAux k items = .ok (.tup (items.map (fun i => .tup (pyElems i)))) := by
  have hlens : pyLens items = .ok (items.map fun _ => k) :=
    pyLens_const k items (fun i hi => (h i hi).1)
  unfold formatQuotesAux
  rw [hlens]
  have h1 : (items.map fun _ => k).all (fun n => n == k) = true := by
    simp
  have h2 : items.all (fun i => (pyElems i).all isStrV) = true :=
    List.all_eq_true.mpr (fun i hi => (h i hi).2)
  simp [h1, h2]

lemma formatQuotesAux_err (k : Nat) (items : List PyVal)
    (hsized : ∀ i ∈ items, ∃ n, pyLen i = .ok n)
    (hbad : (∃ i ∈ items, pyLen i ≠ .ok k) ∨ (∃ i ∈ items, ∃ x ∈ pyElems i, isStrV x = false)) :
    formatQuotesAux k items = .error .typeError := by
  obtain ⟨ns, hns⟩ := pyLens_ok_exists items hsized
  unfold formatQuotesAux
  rw [hns]
  rcases hbad with ⟨i, hi, hik⟩ | ⟨i, hi, x, hx, hxf⟩
  · have hall := pyLens_all_false k items ns hns ⟨i, hi, hik⟩
    simp [hall]
  · have h2 : items.all (fun i => (pyElems i).all isStrV) = false := by
      cases hall : items.all (fun i => (pyElems i).all isStrV) with
      | false => rfl
      | true =>
        exfalso
        have hin := List.all_eq_true.mp (List.all_eq_true.mp hall i hi) x hx
        rw [hxf] at hin
        exact Bool.false_ne_true hin
    simp [h2]

/-- C6: `Book`/`RawBook` construction-time validation. The claim as
frozen — that any level which is not a tuple/list of exactly 3 (resp. 4)
string elements makes construction fail — is FALSE: the code checks only
`len(item) == 3` and that iterating the item yields strings, so e.g. the
3-character string `'abc'` is accepted as a level and stored as
`('a','b','c')`. The amended statement proved here: construction succeeds
exactly on levels that are sized, of length 3 (Book) resp. 4 (RawBook),
and whose iteration yields only strings — each level then stored as a
tuple; any sized level of the wrong length or with a non-string element
raises `TypeError`, and a failing bid list aborts `Book.__init__` before
any book is produced (all-or-nothing). -/
theorem C6_validation (pair : PyVal) (bitems aitems bad ritems : List PyVal)
    (ts : Option ℚ) (now : ℚ)
    (hb : ∀ i ∈ bitems, pyLen i = .ok 3 ∧ (pyElems i).all isStrV = true)
    (ha : ∀ i ∈ aitems, pyLen i = .ok 3 ∧ (pyElems i).all isStrV = true)
    (hr : ∀ i ∈ ritems, pyLen i = .ok 4 ∧ (pyElems i).all isStrV = true)
    (hsized : ∀ i ∈ bad, ∃ n, pyLen i = .ok n)
    (hbad : (∃ i ∈ bad, pyLen i ≠ .ok 3) ∨ (∃ i ∈ bad, ∃ x ∈ pyElems i, isStrV x = false)) :
    Book.init pair (.list bitems) (.list aitems) ts now
        = .ok ⟨"Book",
            (match ts with | some t => if t = 0 then now else t | none => now),
            .tup (bitems.map (fun i => .tup (pyElems i))),
            .tup (aitems.map (fun i => .tup (pyElems i))), pair⟩
      ∧ RawBook.format_quotes (.list ritems)
          = .ok (.tup (ritems.map (fun i => .tup (pyElems i))))
      ∧ Book.format_quotes (.list bad) = .error .typeError
      ∧ Book.init pair (.list bad) (.list aitems) ts now = .error .typeError
      ∧ Book.format_quotes (.num 0) = .error .typeError
      ∧ RawBook.format_quotes (.list [.tup [.str "a", .str "b", .str "c"]])
          = .error .typeError := by
  have hbf := formatQuotesAux_ok 3 bitems hb
  have haf := formatQuotesAux_ok 3 aitems ha
  have hrf := formatQuotesAux_ok 4 ritems hr
  have hbadf := formatQuotesAux_err 3 bad hsized hbad
  refine ⟨?_, ?_, ?_, ?_, rfl, rfl⟩
  · simp [Book.init, Book.format_quotes, hbf, haf]
  · simp [RawBook.format_quotes, hrf]
  · simp [Book.format_quotes, hbadf]
  · simp [Book.init, Book.format_quotes, hbadf]

/-- C6, counterexample to the claim as frozen: the level `'abc'` is
neither a tuple nor a list, yet `Book` construction succeeds, storing the
level as the character tuple `('a','b','c')`. -/
theorem C6_counterexample :
    Book.init (.str "BTCUSD") (.list [.str "abc"]) (.list []) Option.none 1
      = .ok ⟨"Book", 1, .tup [.tup [.str "a", .str "b", .str "c"]], .tup [], .str "BTCUSD"⟩ :=
  rfl

/-- C6, witness: a well-shaped book constructs with its levels preserved
as tuples; a wrong-arity level and a non-string element are rejected. -/
theorem C6_validation_witness :
    Book.init (.str "BTCUSD")
        (.list [.tup [.str "1000", .str "15", .str "121314255.00"]])
        (.list [.tup [.str "1001", .str "15", .str "121314255.00"]]) Option.none 1
        = .ok ⟨"Book", 1, .tup [.tup [.str "1000", .str "15", .str "121314255.00"]],
            .tup [.tup [.str "1001", .str "15", .str "121314255.00"]], .str "BTCUSD"⟩
      ∧ RawBook.format_quotes
          (.list [.tup [.str "1000", .str "15", .str "121314255.00", .str "id-1"]])
          = .ok (.tup [.tup [.str "1000", .str "15", .str "121314255.00", .str "id-1"]])
      ∧ Book.format_quotes (.list [.tup [.str "1000", .num 15, .str "121314255.00"]])
          = .error .typeError
      ∧ Book.init (.str "BTCUSD") (.list [.tup [.str "1000", .num 15, .str "121314255.00"]])
          (.list [.tup [.str "1001", .str "15", .str "121314255.00"]]) Option.none 1
          = .error .typeError
      ∧ Book.format_quotes (.num 0) = .error .typeError
      ∧ RawBook.format_quotes (.list [.tup [.str "a", .str "b", .str "c"]])
          = .error .typeError :=
  C6_validation (.str "BTCUSD")
    [.tup [.str "1000", .str "15", .str "121314255.00"]]
    [.tup [.str "1001", .str "15", .str "121314255.00"]]
    [.tup [.str "1000", .num 15, .str "121314255.00"]]
    [.tup [.str "1000", .str "15", .str "121314255.00", .str "id-1"]] Option.none 1
    (by intro i hi; rw [List.mem_singleton.mp hi]; exact ⟨rfl, rfl⟩)
    (by intro i hi; rw [List.mem_singleton.mp hi]; exact ⟨rfl, rfl⟩)
    (by intro i hi; rw [List.mem_singleton.mp hi]; exact ⟨rfl, rfl⟩)
    (by intro i hi; rw [List.mem_singleton.mp hi]; exact ⟨3, rfl⟩)
    (Or.inr ⟨.tup [.str "1000", .num 15, .str "121314255.00"], List.mem_singleton.mpr rfl,
      .num 15, by simp [pyElems], rfl⟩)

/-- C7: `Trades.__init__` stringification. The 7-element shape is indeed
asserted, but the claim's stringification rule — every scalar field
except `misc` becomes a string, `misc` unchanged — is FALSE: the code
applies `str(x) if x else x` uniformly, so every TRUTHY element
(including `misc`) is stringified and every FALSY element (`None`, `0`,
`""`, empty containers — in any position, e.g. a zero price) is left
unchanged. The amended statement proved here: with every trade of length
7 the constructor succeeds and stores exactly that truthiness-guarded
stringification; a batch containing a trade of a different length raises
`AssertionError`. -/
theorem C7_trades (trades bad : List PyVal) (ts : Option ℚ) (now : ℚ)
    (hne : trades ≠ [])
    (h7 : ∀ t ∈ trades, pyLen t = .ok 7)
    (hbne : bad ≠ [])
    (hbsized : ∀ t ∈ bad, ∃ n, pyLen t = .ok n)
    (hbad : ∃ t ∈ bad, pyLen t ≠ .ok 7) :
    Trades.init trades ts now
        = .ok ⟨"Trades", (match ts with | some t => if t = 0 then now else t | none => now),
            trades.map (fun t =>
              .list ((pyElems t).map (fun x => if pyTruthy x then .str (pyStr x) else x)))⟩
      ∧ Trades.init bad ts now = .error .assertionError := by
  constructor
  · cases trades with
    | nil => exact absurd rfl hne
    | cons t0 rest =>
      have hlens := pyLens_const 7 (t0 :: rest) h7
      have h1 : ((t0 :: rest).map fun _ => 7).all (fun n => n == 7) = true := by
        simp
      simp [Trades.init, hlens, h1]
  · cases bad with
    | nil => exact absurd rfl hbne
    | cons b0 rest =>
      obtain ⟨ns, hns⟩ := pyLens_ok_exists _ hbsized
      have hall := pyLens_all_false 7 _ ns hns hbad
      simp [Trades.init, hns, hall]

/-- C7, counterexample to the claim as frozen: in the trade
`('BTCUSD', 0, '1', 'bid', None, 42, 9)` the `misc` element `42` is
truthy and IS stringified to `'42'`, while the scalar price `0` is falsy
and is NOT stringified — both directions contradict the claim. -/
theorem C7_counterexample :
    Trades.init [.tup [.str "BTCUSD", .num 0, .str "1", .str "bid", .none, .num 42, .num 9]]
        Option.none 5
      = .ok ⟨"Trades", 5,
          [.list [.str "BTCUSD", .num 0, .str "1", .str "bid", .none, .str "42", .str "9"]]⟩
      ∧ (PyVal.str "42" ≠ PyVal.num 42)
      ∧ (PyVal.num 0 ≠ PyVal.str (pyStr (.num 0))) :=
  ⟨rfl, fun h => PyVal.noConfusion h, fun h => PyVal.noConfusion h⟩

/-- C7, witness: an all-truthy 7-tuple of strings is stored stringified;
a 1-element trade tuple is rejected by the assert. -/
theorem C7_trades_witness :
    Trades.init [.tup [.str "BTCUSD", .str "1000", .str "10", .str "bid", .str "UID1000",
        .str "m", .str "22"]] Option.none 5
        = .ok ⟨"Trades", 5,
            [.list [.str "BTCUSD", .str "1000", .str "10", .str "bid", .str "UID1000",
              .str "m", .str "22"]]⟩
      ∧ Trades.init [.tup [.str "BTCUSD"]] Option.none 5 = .error .assertionError :=
  C7_trades
    [.tup [.str "BTCUSD", .str "1000", .str "10", .str "bid", .str "UID1000", .str "m",
      .str "22"]]
    [.tup [.str "BTCUSD"]] Option.none 5
    (by simp)
    (by intro t ht; rw [List.mem_singleton.mp ht]; rfl)
    (by simp)
    (by intro t ht; rw [List.mem_singleton.mp ht]; exact ⟨1, rfl⟩)
    ⟨.tup [.str "BTCUSD"], List.mem_singleton.mpr rfl, by simp [pyLen]⟩
